/-
Verification of the Aurora HTTP request orchestrator (src/Aurora.ts,
src/errors.ts, src/types.ts) against its natural-language specification.

The orchestrator is shallowly embedded: JavaScript numbers used for the
concurrency limit become an inductive `JSNum` (finite integer, ±Infinity,
NaN); JavaScript objects used as header/param maps become association
lists with the insertion-order update semantics of `Object.assign` and
`delete`; the async `call` method is split at its single suspension point
(the awaited transport invocation) into `callStart` (entry up to dispatch)
and `callSettle` (from transport settlement to return/rethrow), with the
observable side effects (URL resolution, loading-callback invocations,
transport dispatch) recorded as an explicit action list.  Concurrent call
interleavings are a list of `Step`s folded over a system state.
-/
import Mathlib

namespace Aurora

/-! ### JavaScript numbers (for the concurrency limit `max`) -/

/-- A JavaScript number as used for `requests.max`: a finite integer,
positive or negative infinity, or NaN. -/
inductive JSNum where
  | num (n : Int)
  | posInf
  | negInf
  | nan
  deriving DecidableEq, Repr

/-- JavaScript truthiness of a number: `0` and `NaN` are falsy. -/
def jsTruthy : JSNum → Bool
  | .num n => n != 0
  | .nan => false
  | _ => true

/-- JavaScript `>=` on numbers; any comparison with NaN is false. -/
def jsGe : JSNum → JSNum → Bool
  | .nan, _ => false
  | _, .nan => false
  | .num a, .num b => decide (a ≥ b)
  | .num _, .posInf => false
  | .num _, .negInf => true
  | .posInf, _ => true
  | .negInf, .negInf => true
  | .negInf, _ => false

/-- JavaScript `>` on numbers; any comparison with NaN is false. -/
def jsGt : JSNum → JSNum → Bool
  | .nan, _ => false
  | _, .nan => false
  | .num a, .num b => decide (a > b)
  | .num _, .posInf => false
  | .num _, .negInf => true
  | .posInf, .posInf => false
  | .posInf, _ => true
  | .negInf, _ => false

/-! ### JavaScript plain objects as string-keyed association lists

`defaults.headers.common` and `defaults.params` are plain objects mutated
by `Object.assign` and `delete`.  They are modelled as association lists
whose keys are unique by construction; `objSet` updates an existing key in
place (preserving insertion order, as JavaScript does) or appends a new
one, and `objDelete` removes a key. -/

/-- Property read `o[k]`: the value at key `k`, if present. -/
def objGet {α : Type} : List (String × α) → String → Option α
  | [], _ => none
  | (k', v) :: rest, k => if k' = k then some v else objGet rest k

/-- Property write `o[k] = v`: update in place or append. -/
def objSet {α : Type} : List (String × α) → String → α → List (String × α)
  | [], k, v => [(k, v)]
  | (k', v') :: rest, k, v =>
      if k' = k then (k, v) :: rest else (k', v') :: objSet rest k v

/-- `delete o[k]`: drop the binding at key `k`. -/
def objDelete {α : Type} : List (String × α) → String → List (String × α)
  | [], _ => []
  | (k', v) :: rest, k =>
      if k' = k then objDelete rest k else (k', v) :: objDelete rest k

/-- `Object.assign(o, m)`: fold the bindings of `m` into `o`, later
bindings overwriting earlier ones. -/
def objAssign {α : Type} (o m : List (String × α)) : List (String × α) :=
  m.foldl (fun acc p => objSet acc p.1 p.2) o

/-! ### JavaScript string helpers used by `normalizeUrl` -/

/-- Whitespace removed by `String.prototype.trim`. -/
def isJsSpace (c : Char) : Bool :=
  c == ' ' || c == '\t' || c == '\n' || c == '\r' || c == Char.ofNat 11 || c == Char.ofNat 12

/-- `s.trim()`. -/
def jsTrim (s : String) : String :=
  String.mk (((s.toList.dropWhile isJsSpace).reverse.dropWhile isJsSpace).reverse)

/-- `s.replace(/\/+$/, '')`: strip all trailing slashes. -/
def stripTrailingSlashes (s : String) : String :=
  String.mk ((s.toList.reverse.dropWhile (fun c => c == '/')).reverse)

/-- `s.replace(/^\/+/, '')`: strip all leading slashes. -/
def stripLeadingSlashes (s : String) : String :=
  String.mk (s.toList.dropWhile (fun c => c == '/'))

/-! ### Errors (src/errors.ts) -/

/-- A thrown JavaScript value: `AuroraInstanceError`, a runtime
`TypeError` (e.g. reading a property of `undefined`), or an opaque
non-Axios error thrown by the transport (tagged by a number). -/
inductive JsError where
  | instanceError (message : String)
  | typeError (message : String)
  | fatalErr (tag : Nat)
  deriving DecidableEq, Repr

/-- The `request` object attached to an `AxiosError`; its `status`
property may itself be absent. -/
structure RequestData where
  status : Option Int := none
  deriving DecidableEq, Repr

/-- An Axios response: status code and body. -/
structure AxiosResponse where
  status : Int := 200
  body : String := ""
  deriving DecidableEq, Repr

/-- The fields of an `AxiosError` read by `AuroraPromiseError`:
`message`, `code`, `request` (possibly absent), `response` (possibly
absent), `config` (modelled opaquely). -/
structure AxiosErrorData where
  message : String := ""
  code : Option String := none
  request : Option RequestData := none
  response : Option AxiosResponse := none
  config : Option String := none
  deriving DecidableEq, Repr

/-- The classified error object built by the `AuroraPromiseError`
constructor. -/
structure AuroraPromiseError where
  name : String
  msg : String
  errorCode : Option String
  requestStatus : Option Int
  responseStatus : Int
  axiosInstanceConfig : Option String
  deriving DecidableEq, Repr

/-- The `AuroraPromiseError` constructor.  It reads
`axiosError.request.status` unconditionally: when `request` is absent the
property access throws a `TypeError`.  `responseStatus` is
`axiosError.response?.status ?? 500`. -/
def AuroraPromiseError.make (e : AxiosErrorData) : Except JsError AuroraPromiseError :=
  match e.request with
  | none => .error (.typeError "Cannot read properties of undefined (reading status)")
  | some req => .ok
      { name := "AuroraPromiseError"
        msg := e.message
        errorCode := e.code
        requestStatus := req.status
        responseStatus := (e.response.map AxiosResponse.status).getD 500
        axiosInstanceConfig := e.config }

/-! ### Call options (src/types.ts `AuroraCallOptions`)

Optional fields model key presence; `none` is an absent key.  Controllers
and loading callbacks are identified by numeric tags (their behaviour as
functions/objects is irrelevant to the orchestrator's control flow). -/

/-- Per-call options: `endpoint`, `abortController`, `loadingCallback`,
and the Axios passthrough fields (`headers`, `params`, `data`). -/
structure CallOptions where
  endpoint : Option String := none
  abortController : Option Nat := none
  loadingCallback : Option Nat := none
  headers : Option (List (String × String)) := none
  params : Option (List (String × String)) := none
  data : Option String := none
  deriving DecidableEq, Repr

/-- The rest pattern `{abortController, loadingCallback, ...options}`:
the captured `options` object without those two keys. -/
def restOf (o : CallOptions) : CallOptions :=
  { o with abortController := none, loadingCallback := none }

/-- Per-field spread: the right operand's key wins when present. -/
def optMerge {α : Type} (a b : Option α) : Option α :=
  match b with
  | some v => some v
  | none => a

/-- The object spread `{...a, ...b}` over call options. -/
def mergeOptions (a b : CallOptions) : CallOptions :=
  { endpoint := optMerge a.endpoint b.endpoint
    abortController := optMerge a.abortController b.abortController
    loadingCallback := optMerge a.loadingCallback b.loadingCallback
    headers := optMerge a.headers b.headers
    params := optMerge a.params b.params
    data := optMerge a.data b.data }

/-! ### Orchestrator instance state (class fields of `Aurora`) -/

/-- `this.requests = { max, current }`.  `current` is an integer counter;
`max` is a JavaScript number (finite or `Infinity`). -/
structure Requests where
  max : JSNum
  current : Int
  deriving DecidableEq, Repr

/-- Instance state: `axiosInstance.defaults.baseURL`, the request gate,
default headers (`defaults.headers.common`), default params
(`defaults.params`), and default timeout (`defaults.timeout`). -/
structure AuroraState where
  baseURL : String := ""
  requests : Requests := { max := .posInf, current := 0 }
  headersCommon : List (String × String) := []
  params : List (String × String) := []
  timeout : Option Int := none
  deriving DecidableEq, Repr

/-- `setMaxConcurrentRequestsLimit(limit)`:
`this.requests.max = limit && limit > 0 ? limit : Number.POSITIVE_INFINITY`.
An absent argument is `undefined`, which is falsy. -/
def setMaxConcurrentRequestsLimit (σ : AuroraState) (limit : Option JSNum) : AuroraState :=
  let v := match limit with
    | none => JSNum.posInf
    | some l => if jsTruthy l && jsGt l (.num 0) then l else JSNum.posInf
  { σ with requests := { σ.requests with max := v } }

/-- `addHeaders(headers)`: `Object.assign(defaults.headers.common, headers)`. -/
def addHeaders (σ : AuroraState) (hs : List (String × String)) : AuroraState :=
  { σ with headersCommon := objAssign σ.headersCommon hs }

/-- `removeHeaders(headerNames?)`: clear all when the argument is
`undefined`, else delete each named key. -/
def removeHeaders (σ : AuroraState) (names : Option (List String)) : AuroraState :=
  match names with
  | none => { σ with headersCommon := [] }
  | some ns => { σ with headersCommon := ns.foldl objDelete σ.headersCommon }

/-- `addParams(params)`: `Object.assign(defaults.params, params)`. -/
def addParams (σ : AuroraState) (ps : List (String × String)) : AuroraState :=
  { σ with params := objAssign σ.params ps }

/-- `removeParams(paramNames?)`: sets `defaults.params = {}` when the
argument is `undefined`; then `paramNames?.forEach(delete ...)` (a no-op
when `undefined`). -/
def removeParams (σ : AuroraState) (names : Option (List String)) : AuroraState :=
  let ps := match names with
    | none => ([] : List (String × String))
    | some _ => σ.params
  let ps := match names with
    | none => ps
    | some ns => ns.foldl objDelete ps
  { σ with params := ps }

/-- `setTimeout(timeout)`. -/
def setTimeoutMs (σ : AuroraState) (t : Int) : AuroraState :=
  { σ with timeout := some t }

/-- `removeTimeout()`. -/
def removeTimeoutMs (σ : AuroraState) : AuroraState :=
  { σ with timeout := none }

/-! ### URL normalizer (`Aurora.normalizeUrl`) -/

/-- `normalizeUrl(baseURL, endpoint)`: throws
`AuroraInstanceError('URL cannot be null')` when both trimmed inputs are
empty; otherwise strips trailing slashes from the base and leading
slashes from the endpoint and joins them with a single slash, or returns
the cleaned endpoint alone when the cleaned base is empty. -/
def normalizeUrl (baseURL endpoint : String) : Except JsError String :=
  if jsTrim baseURL = "" ∧ jsTrim endpoint = "" then
    .error (.instanceError "URL cannot be null")
  else
    let cleanBaseURL := stripTrailingSlashes baseURL
    let cleanEndpoint := stripLeadingSlashes endpoint
    .ok (if cleanBaseURL ≠ "" then cleanBaseURL ++ "/" ++ cleanEndpoint else cleanEndpoint)

/-! ### The `call` method, split at its suspension point

`call(method, options)` runs synchronously from entry until the awaited
transport invocation (`callStart`), suspends, and runs synchronously
again from transport settlement to return or rethrow (`callSettle`).
Observable effects are recorded as a list of `Action`s. -/

/-- An observable side effect of a call: resolving the URL, invoking the
supplied loading callback with a boolean, or dispatching to the
transport. -/
inductive Action where
  | resolveUrl (base endpoint : String)
  | cbLoad (b : Bool)
  | dispatch (url : String)
  deriving DecidableEq, Repr

/-- How the synchronous prefix of `call` ends: rejected at the gate
(`InstanceError` thrown, nothing admitted), admitted but thrown out of
URL normalization (rethrown after the `finally` cleanup), or suspended
awaiting the transport. -/
inductive StartResult where
  | rejected (e : JsError)
  | threw (e : JsError)
  | suspended (url : String) (hasCb : Bool)
  deriving DecidableEq, Repr

/-- Body of `call` after the gate check and `this.requests.current++`:
URL normalization inside `try`, then `loadingCallback(true)` and the
transport dispatch; a normalization throw is not an `AxiosError`, so the
`catch` rethrows it, after the `finally` block has decremented the gate
and invoked `loadingCallback(false)`. -/
def callStartBody (σ : AuroraState) (opts : CallOptions) :
    AuroraState × List Action × StartResult :=
  let base := σ.baseURL
  let ep := opts.endpoint.getD ""
  let hasCb := opts.loadingCallback.isSome
  match normalizeUrl base ep with
  | .error e =>
      ({ σ with requests := { σ.requests with current := σ.requests.current - 1 } },
       [.resolveUrl base ep] ++ (if hasCb then [.cbLoad false] else []),
       .threw e)
  | .ok url =>
      (σ,
       [.resolveUrl base ep] ++ (if hasCb then [.cbLoad true] else []) ++ [.dispatch url],
       .suspended url hasCb)

/-- `call` from entry to its suspension point: the gate check
(`current >= max` throws `AuroraInstanceError('Request limit exceeded')`
with no state change and no side effects), then the increment, then the
body. -/
def callStart (σ : AuroraState) (opts : CallOptions) :
    AuroraState × List Action × StartResult :=
  if jsGe (.num σ.requests.current) σ.requests.max then
    (σ, [], .rejected (.instanceError "Request limit exceeded"))
  else
    callStartBody
      { σ with requests := { σ.requests with current := σ.requests.current + 1 } } opts

/-- The result object returned by `call`: `response`, `error`,
`hasError`, and the data captured by the `recall` closure (the method and
the rest-options, without `abortController` and `loadingCallback`). -/
structure Handle where
  response : Option AxiosResponse
  error : Option AuroraPromiseError
  hasError : Bool
  recallMethod : String
  recallOptions : CallOptions
  deriving DecidableEq, Repr

/-- How `call` ends after the transport settles: a returned handle or a
rethrown error. -/
inductive SettleResult where
  | returned (h : Handle)
  | threw (e : JsError)
  deriving DecidableEq, Repr

/-- How the awaited transport invocation settles: fulfilled with a
response, rejected with an `AxiosError`, or rejected with a non-Axios
error. -/
inductive TransportOutcome where
  | success (resp : AxiosResponse)
  | axiosError (e : AxiosErrorData)
  | fatal (e : JsError)
  deriving DecidableEq, Repr

/-- `call` from transport settlement to completion: the `catch` wraps an
`AxiosError` into an `AuroraPromiseError` (whose constructor itself
throws a `TypeError` when the error carries no `request` object) and
rethrows anything else; the `finally` decrements the gate and invokes
`loadingCallback(false)`; on a normal exit the handle with the `recall`
closure is returned. -/
def callSettle (σ : AuroraState) (method : String) (opts : CallOptions)
    (outcome : TransportOutcome) : AuroraState × List Action × SettleResult :=
  let σ' := { σ with requests := { σ.requests with current := σ.requests.current - 1 } }
  let fin : List Action := if opts.loadingCallback.isSome then [.cbLoad false] else []
  match outcome with
  | .success resp =>
      (σ', fin, .returned
        { response := some resp, error := none, hasError := false
          recallMethod := method, recallOptions := restOf opts })
  | .axiosError e =>
      match AuroraPromiseError.make e with
      | .ok pe =>
          (σ', fin, .returned
            { response := none, error := some pe, hasError := true
              recallMethod := method, recallOptions := restOf opts })
      | .error te => (σ', fin, .threw te)
  | .fatal e => (σ', fin, .threw e)

/-- Invoking a handle's `recall(customOptions)` at orchestrator state `σ`:
the closure is `customOptions => this.call(method, {...options, ...customOptions})`,
so it re-enters `call` with the captured method and the spread of the
captured rest-options under the overrides, against the state current at
recall time. -/
def invokeRecall (h : Handle) (custom : CallOptions) (σ : AuroraState) :
    AuroraState × List Action × StartResult :=
  callStart σ (mergeOptions h.recallOptions custom)

/-! ### Interleaved concurrent calls

Cooperative single-threaded scheduling: each step either starts a new
call (running its synchronous prefix) or settles one pending transport
invocation (running the corresponding suffix). -/

/-- A call suspended at its transport invocation. -/
structure PendingCall where
  method : String
  opts : CallOptions
  deriving DecidableEq, Repr

/-- Whole-system state: the orchestrator instance plus the pending
(suspended) calls. -/
structure SysState where
  aurora : AuroraState
  pending : List PendingCall
  deriving DecidableEq, Repr

/-- One scheduler step: start a call, or settle the `i`-th pending one
with a given transport outcome. -/
inductive Step where
  | start (method : String) (opts : CallOptions)
  | settle (i : Nat) (outcome : TransportOutcome)
  deriving DecidableEq, Repr

/-- Execute one step. -/
def runStep (σ : SysState) : Step → SysState
  | .start m opts =>
      let r := callStart σ.aurora opts
      match r.2.2 with
      | .suspended _ _ => { aurora := r.1, pending := σ.pending ++ [⟨m, opts⟩] }
      | _ => { σ with aurora := r.1 }
  | .settle i outcome =>
      match σ.pending[i]? with
      | none => σ
      | some pc =>
          { aurora := (callSettle σ.aurora pc.method pc.opts outcome).1
            pending := σ.pending.eraseIdx i }

/-- Execute a list of steps. -/
def runSteps (σ : SysState) (steps : List Step) : SysState :=
  steps.foldl runStep σ

/-- A freshly constructed instance with concurrency limit `M`: no call in
flight. -/
def initSys (baseURL : String) (M : JSNum) : SysState :=
  { aurora := { baseURL := baseURL, requests := { max := M, current := 0 } }
    pending := [] }

/-! ### Lemmas on object operations -/

theorem objGet_objSet_self {α : Type} (o : List (String × α)) (k : String) (v : α) :
    objGet (objSet o k v) k = some v := by
  induction o with
  | nil => simp [objSet, objGet]
  | cons p rest ih =>
      obtain ⟨k', v'⟩ := p
      by_cases h : k' = k
      · simp [objSet, objGet, h]
      · simp [objSet, objGet, h, ih]

theorem objGet_objSet_other {α : Type} (o : List (String × α)) (k k' : String) (v : α)
    (hne : k' ≠ k) : objGet (objSet o k v) k' = objGet o k' := by
  induction o with
  | nil => simp [objSet, objGet, Ne.symm hne]
  | cons p rest ih =>
      obtain ⟨k₁, v₁⟩ := p
      by_cases h : k₁ = k
      · subst h
        simp [objSet, objGet, Ne.symm hne]
      · by_cases h' : k₁ = k'
        · simp [objSet, objGet, h, h', hne]
        · simp [objSet, objGet, h, h', ih]

theorem objGet_objAssign_not_mem {α : Type} (m o : List (String × α)) (k : String)
    (hk : k ∉ m.map Prod.fst) : objGet (objAssign o m) k = objGet o k := by
  induction m generalizing o with
  | nil => simp [objAssign]
  | cons p rest ih =>
      obtain ⟨k₁, v₁⟩ := p
      simp only [List.map_cons, List.mem_cons] at hk
      push_neg at hk
      have h1 : objAssign o ((k₁, v₁) :: rest) = objAssign (objSet o k₁ v₁) rest := rfl
      rw [h1, ih _ hk.2, objGet_objSet_other _ _ _ _ hk.1]

theorem objGet_objAssign_mem {α : Type} (m o : List (String × α)) (k : String) (v : α)
    (hnd : (m.map Prod.fst).Nodup) (hmem : (k, v) ∈ m) :
    objGet (objAssign o m) k = some v := by
  induction m generalizing o with
  | nil => simp at hmem
  | cons p rest ih =>
      obtain ⟨k₁, v₁⟩ := p
      simp only [List.map_cons, List.nodup_cons] at hnd
      have h1 : objAssign o ((k₁, v₁) :: rest) = objAssign (objSet o k₁ v₁) rest := rfl
      rcases List.mem_cons.mp hmem with heq | hrest
      · obtain ⟨hk, hv⟩ := Prod.mk.injEq .. ▸ heq
        subst hk; subst hv
        have hk1 : k ∉ rest.map Prod.fst := hnd.1
        rw [h1, objGet_objAssign_not_mem _ _ _ hk1, objGet_objSet_self]
      · rw [h1, ih _ hnd.2 hrest]

theorem objGet_objDelete_self {α : Type} (o : List (String × α)) (k : String) :
    objGet (objDelete o k) k = none := by
  induction o with
  | nil => simp [objDelete, objGet]
  | cons p rest ih =>
      obtain ⟨k₁, v₁⟩ := p
      by_cases h : k₁ = k
      · simp [objDelete, h, ih]
      · simp [objDelete, objGet, h, ih]

theorem objGet_objDelete_other {α : Type} (o : List (String × α)) (k k' : String)
    (hne : k' ≠ k) : objGet (objDelete o k) k' = objGet o k' := by
  induction o with
  | nil => simp [objDelete, objGet]
  | cons p rest ih =>
      obtain ⟨k₁, v₁⟩ := p
      by_cases h : k₁ = k
      · subst h
        simp [objDelete, objGet, Ne.symm hne, ih]
      · by_cases h' : k₁ = k'
        · simp [objDelete, objGet, h, h', hne]
        · simp [objDelete, objGet, h, h', ih]

theorem objGet_foldl_objDelete_not_mem {α : Type} (ns : List String)
    (o : List (String × α)) (k : String) (hk : k ∉ ns) :
    objGet (ns.foldl objDelete o) k = objGet o k := by
  induction ns generalizing o with
  | nil => rfl
  | cons n rest ih =>
      simp only [List.mem_cons] at hk
      push_neg at hk
      have h1 : ((n :: rest).foldl objDelete o) = rest.foldl objDelete (objDelete o n) := rfl
      rw [h1, ih _ hk.2, objGet_objDelete_other _ _ _ hk.1]

theorem objGet_foldl_objDelete_mem {α : Type} (ns : List String)
    (o : List (String × α)) (k : String) (hk : k ∈ ns) :
    objGet (ns.foldl objDelete o) k = none := by
  induction ns generalizing o with
  | nil => simp at hk
  | cons n rest ih =>
      have h1 : ((n :: rest).foldl objDelete o) = rest.foldl objDelete (objDelete o n) := rfl
      by_cases hmem : k ∈ rest
      · rw [h1, ih _ hmem]
      · rcases List.mem_cons.mp hk with heq | hrest
        · subst heq
          rw [h1, objGet_foldl_objDelete_not_mem _ _ _ hmem, objGet_objDelete_self]
        · exact absurd hrest hmem

/-! ### Lemmas on the call machinery -/

theorem callStart_of_ge (σ : AuroraState) (o : CallOptions)
    (hge : jsGe (.num σ.requests.current) σ.requests.max = true) :
    callStart σ o = (σ, [], .rejected (.instanceError "Request limit exceeded")) := by
  simp [callStart, hge]

theorem callStart_of_lt (σ : AuroraState) (o : CallOptions)
    (hge : jsGe (.num σ.requests.current) σ.requests.max = false) :
    callStart σ o =
      callStartBody
        { σ with requests := { σ.requests with current := σ.requests.current + 1 } } o := by
  simp [callStart, hge]

theorem callStartBody_of_err (σ : AuroraState) (o : CallOptions) (e : JsError)
    (h : normalizeUrl σ.baseURL (o.endpoint.getD "") = .error e) :
    callStartBody σ o =
      ({ σ with requests := { σ.requests with current := σ.requests.current - 1 } },
       [.resolveUrl σ.baseURL (o.endpoint.getD "")]
         ++ (if o.loadingCallback.isSome then [.cbLoad false] else []),
       .threw e) := by
  simp [callStartBody, h]

theorem callStartBody_of_ok (σ : AuroraState) (o : CallOptions) (url : String)
    (h : normalizeUrl σ.baseURL (o.endpoint.getD "") = .ok url) :
    callStartBody σ o =
      (σ,
       [.resolveUrl σ.baseURL (o.endpoint.getD "")]
         ++ (if o.loadingCallback.isSome then [.cbLoad true] else [])
         ++ [.dispatch url],
       .suspended url o.loadingCallback.isSome) := by
  simp [callStartBody, h]

/-- The `finally` block: every settlement path decrements `current` by
exactly one and leaves `max` untouched. -/
theorem callSettle_state (σ : AuroraState) (m : String) (o : CallOptions)
    (out : TransportOutcome) :
    (callSettle σ m o out).1 =
      { σ with requests := { σ.requests with current := σ.requests.current - 1 } } := by
  cases out with
  | success r => rfl
  | axiosError e =>
      cases he : AuroraPromiseError.make e <;> simp [callSettle, he]
  | fatal e => rfl

/-- A call thrown out of URL normalization leaves `current` unchanged:
the increment ran, and the `finally` decrement ran. -/
theorem callStart_threw_current (σ : AuroraState) (o : CallOptions) (e : JsError)
    (h : (callStart σ o).2.2 = .threw e) :
    (callStart σ o).1.requests.current = σ.requests.current ∧
    (callStart σ o).1.requests.max = σ.requests.max := by
  by_cases hge : jsGe (.num σ.requests.current) σ.requests.max = true
  · simp [callStart, hge] at h
  · simp only [callStart, hge, Bool.false_eq_true, if_false, callStartBody] at h ⊢
    cases hn : normalizeUrl σ.baseURL (o.endpoint.getD "") with
    | error e' =>
        simp only [hn] at h ⊢
        constructor
        · simp
        · simp
    | ok url =>
        simp only [hn] at h
        exact StartResult.noConfusion h

/-- A suspended call has incremented `current` by exactly one. -/
theorem callStart_suspended_current (σ : AuroraState) (o : CallOptions) (url : String)
    (cb : Bool) (h : (callStart σ o).2.2 = .suspended url cb) :
    (callStart σ o).1.requests.current = σ.requests.current + 1 ∧
    (callStart σ o).1.requests.max = σ.requests.max ∧
    jsGe (.num σ.requests.current) σ.requests.max = false := by
  by_cases hge : jsGe (.num σ.requests.current) σ.requests.max = true
  · simp [callStart, hge] at h
  · have hge' : jsGe (.num σ.requests.current) σ.requests.max = false := by simpa using hge
    simp only [callStart, hge', Bool.false_eq_true, if_false, callStartBody] at h ⊢
    cases hn : normalizeUrl σ.baseURL (o.endpoint.getD "") with
    | error e' =>
        simp only [hn] at h
        exact StartResult.noConfusion h
    | ok u =>
        simp only [hn] at h ⊢
        exact ⟨by simp, by simp, trivial⟩

/-- A rejected call leaves the whole instance state unchanged. -/
theorem callStart_rejected_state (σ : AuroraState) (o : CallOptions) (e : JsError)
    (h : (callStart σ o).2.2 = .rejected e) :
    (callStart σ o).1 = σ := by
  by_cases hge : jsGe (.num σ.requests.current) σ.requests.max = true
  · rw [callStart_of_ge σ o hge]
  · simp only [callStart, (by simpa using hge : jsGe (.num σ.requests.current) σ.requests.max = false),
      Bool.false_eq_true, if_false, callStartBody] at h
    cases hn : normalizeUrl σ.baseURL (o.endpoint.getD "") with
    | error e' =>
        simp only [hn] at h
        exact StartResult.noConfusion h
    | ok u =>
        simp only [hn] at h
        exact StartResult.noConfusion h

/-! ### The concurrency-gate invariant over interleavings -/

/-- Gate invariant: `max` is the configured limit, `current` equals the
number of suspended calls, and when the limit is a finite integer
`current` never exceeds it. -/
def gateInv (M : JSNum) (σ : SysState) : Prop :=
  σ.aurora.requests.max = M ∧
  σ.aurora.requests.current = (σ.pending.length : Int) ∧
  (∀ m : Int, M = .num m → σ.aurora.requests.current ≤ m)

theorem gateInv_runStep (M : JSNum) (σ : SysState) (s : Step)
    (h : gateInv M σ) : gateInv M (runStep σ s) := by
  obtain ⟨hmax, hcur, hbound⟩ := h
  cases s with
  | start m opts =>
      show gateInv M
        (match (callStart σ.aurora opts).2.2 with
         | .suspended _ _ =>
             { aurora := (callStart σ.aurora opts).1, pending := σ.pending ++ [⟨m, opts⟩] }
         | _ => { σ with aurora := (callStart σ.aurora opts).1 })
      cases hr : (callStart σ.aurora opts).2.2 with
      | rejected e =>
          have := callStart_rejected_state σ.aurora opts e hr
          simp only [this]
          exact ⟨hmax, hcur, hbound⟩
      | threw e =>
          obtain ⟨hc, hm⟩ := callStart_threw_current σ.aurora opts e hr
          refine ⟨by rw [hm, hmax], by rw [hc]; exact hcur, fun m' hM => by rw [hc]; exact hbound m' hM⟩
      | suspended url cb =>
          obtain ⟨hc, hm, hge⟩ := callStart_suspended_current σ.aurora opts url cb hr
          refine ⟨by rw [hm, hmax], ?_, ?_⟩
          · simp only [List.length_append, List.length_cons, List.length_nil]
            rw [hc, hcur]
            push_cast
            ring
          · intro m' hM
            rw [hc]
            have : jsGe (.num σ.aurora.requests.current) (.num m') = false := by
              rw [← hM, ← hmax]; exact hge
            simp only [jsGe, decide_eq_false_iff_not, not_le] at this
            omega
  | settle i outcome =>
      show gateInv M
        (match σ.pending[i]? with
         | none => σ
         | some pc =>
             { aurora := (callSettle σ.aurora pc.method pc.opts outcome).1
               pending := σ.pending.eraseIdx i })
      cases hp : σ.pending[i]? with
      | none => exact ⟨hmax, hcur, hbound⟩
      | some pc =>
          show gateInv M
            { aurora := (callSettle σ.aurora pc.method pc.opts outcome).1
              pending := σ.pending.eraseIdx i }
          have hlt : i < σ.pending.length := by
            by_contra hcontra
            rw [List.getElem?_eq_none (by omega)] at hp
            exact Option.noConfusion hp
          have hlen := List.length_eraseIdx_add_one hlt
          rw [callSettle_state]
          refine ⟨hmax, ?_, ?_⟩
          · show σ.aurora.requests.current - 1 = ((σ.pending.eraseIdx i).length : Int)
            omega
          · intro m' hM
            have := hbound m' hM
            show σ.aurora.requests.current - 1 ≤ m'
            omega

theorem gateInv_runSteps (M : JSNum) (σ : SysState) (steps : List Step)
    (h : gateInv M σ) : gateInv M (runSteps σ steps) := by
  induction steps generalizing σ with
  | nil => exact h
  | cons s rest ih => exact ih (runStep σ s) (gateInv_runStep M σ s h)

/-! ### Claim theorems -/

/-- Claim C1: Over every interleaving of calls on one orchestrator
instance, the in-flight counter `current` always equals the number of
calls suspended at the transport, never exceeds a finite configured
`max`, and returns to 0 once all admitted calls have settled; moreover
`current` is decremented exactly once per admitted call on every exit
path: every transport settlement (success, classified error,
classification `TypeError`, fatal rethrow) decrements it by one, and a
call thrown out of URL normalization leaves it restored. -/
theorem C1_gate_invariant (baseURL : String) (M : JSNum) (steps : List Step)
    (hM : M = .posInf ∨ ∃ m : Int, 0 < m ∧ M = .num m) :
    ((runSteps (initSys baseURL M) steps).aurora.requests.current
        = ((runSteps (initSys baseURL M) steps).pending.length : Int)
      ∧ (∀ m : Int, M = .num m →
          (runSteps (initSys baseURL M) steps).aurora.requests.current ≤ m)
      ∧ ((runSteps (initSys baseURL M) steps).pending = [] →
          (runSteps (initSys baseURL M) steps).aurora.requests.current = 0))
    ∧ (∀ (σ : AuroraState) (m : String) (o : CallOptions) (out : TransportOutcome),
        (callSettle σ m o out).1.requests.current = σ.requests.current - 1)
    ∧ (∀ (σ : AuroraState) (o : CallOptions) (e : JsError),
        (callStart σ o).2.2 = .threw e →
        (callStart σ o).1.requests.current = σ.requests.current) := by
  have hinv : gateInv M (runSteps (initSys baseURL M) steps) := by
    apply gateInv_runSteps
    refine ⟨rfl, by simp [initSys], ?_⟩
    intro m hm
    rcases hM with h | ⟨m', hm', hMm⟩
    · rw [h] at hm
      exact absurd hm (by simp)
    · rw [hMm] at hm
      injection hm with hh
      subst hh
      show (0 : Int) ≤ m'
      omega
  obtain ⟨hmax, hcur, hbound⟩ := hinv
  refine ⟨⟨hcur, hbound, ?_⟩, ?_, ?_⟩
  · intro hnil
    rw [hcur, hnil]
    rfl
  · intro σ m o out
    rw [callSettle_state]
  · intro σ o e h
    exact (callStart_threw_current σ o e h).1

/-- A four-step interleaving used to instantiate `C1_gate_invariant`:
two calls start concurrently, then both settle (one success, one
classified error). -/
def c1TraceExample : List Step :=
  [Step.start "get" { endpoint := some "a" },
   Step.start "post" { endpoint := some "b" },
   Step.settle 0 (.success {}),
   Step.settle 0 (.axiosError { request := some {} })]

theorem C1_gate_invariant_witness :
    (JSNum.num 2 = JSNum.posInf ∨ ∃ m : Int, 0 < m ∧ JSNum.num 2 = JSNum.num m)
    ∧ (runSteps (initSys "b" (.num 2)) c1TraceExample).aurora.requests.current
        = ((runSteps (initSys "b" (.num 2)) c1TraceExample).pending.length : Int)
    ∧ (runSteps (initSys "b" (.num 2)) c1TraceExample).aurora.requests.current ≤ 2
    ∧ ((runSteps (initSys "b" (.num 2)) c1TraceExample).pending = [] →
        (runSteps (initSys "b" (.num 2)) c1TraceExample).aurora.requests.current = 0)
    ∧ (callSettle { baseURL := "b" } "get" {} (.fatal (.fatalErr 0))).1.requests.current
        = ({ baseURL := "b" } : AuroraState).requests.current - 1
    ∧ (callStart { baseURL := "" } { endpoint := some "" }).1.requests.current
        = ({ baseURL := "" } : AuroraState).requests.current := by
  have hM : JSNum.num 2 = JSNum.posInf ∨ ∃ m : Int, 0 < m ∧ JSNum.num 2 = JSNum.num m :=
    Or.inr ⟨2, by omega, rfl⟩
  have h := C1_gate_invariant "b" (.num 2) c1TraceExample hM
  exact ⟨hM, h.1.1, h.1.2.1 2 rfl, h.1.2.2,
    h.2.1 { baseURL := "b" } "get" {} (.fatal (.fatalErr 0)),
    h.2.2 { baseURL := "" } { endpoint := some "" }
      (.instanceError "URL cannot be null") (by rfl)⟩

/-- Claim C2: When `current >= max` (under JavaScript `>=`) at entry,
`call` throws `InstanceError("Request limit exceeded")` synchronously
with the instance state unchanged and an empty action list — so no URL
resolution, no loading-callback invocation and no transport dispatch
(the header merge happens only inside the dispatched transport call);
when the check fails, the call is admitted and proceeds as the call body
run on the state whose `current` has been incremented by exactly one. -/
theorem C2_admission_gate (σ : AuroraState) (o : CallOptions) :
    (jsGe (.num σ.requests.current) σ.requests.max = true →
      callStart σ o = (σ, [], .rejected (.instanceError "Request limit exceeded")))
    ∧ (jsGe (.num σ.requests.current) σ.requests.max = false →
      callStart σ o =
        callStartBody
          { σ with requests := { σ.requests with current := σ.requests.current + 1 } } o) :=
  ⟨callStart_of_ge σ o, callStart_of_lt σ o⟩

theorem C2_admission_gate_witness :
    (jsGe (.num ({ requests := { max := .num 1, current := 1 } } : AuroraState).requests.current)
        ({ requests := { max := .num 1, current := 1 } } : AuroraState).requests.max = true)
    ∧ callStart { requests := { max := .num 1, current := 1 } } { endpoint := some "e" }
        = ({ requests := { max := .num 1, current := 1 } }, [],
           .rejected (.instanceError "Request limit exceeded"))
    ∧ (jsGe (.num ({ requests := { max := .num 1, current := 0 } } : AuroraState).requests.current)
        ({ requests := { max := .num 1, current := 0 } } : AuroraState).requests.max = false)
    ∧ callStart { requests := { max := .num 1, current := 0 } } { endpoint := some "e" }
        = callStartBody { requests := { max := .num 1, current := 1 } } { endpoint := some "e" } := by
  refine ⟨by decide, ?_, by decide, ?_⟩
  · exact (C2_admission_gate { requests := { max := .num 1, current := 1 } }
      { endpoint := some "e" }).1 (by decide)
  · exact (C2_admission_gate { requests := { max := .num 1, current := 0 } }
      { endpoint := some "e" }).2 (by decide)

/-- Claim C3: `normalizeUrl` throws `InstanceError("URL cannot be null")`
exactly when both trimmed inputs are empty; otherwise it strips trailing
slashes from the base and leading slashes from the endpoint, returning
the cleaned endpoint alone when the cleaned base is empty and
`cleanedBase ++ "/" ++ cleanedEndpoint` otherwise; in particular on the
three concrete inputs of the specification. -/
theorem C3_normalizeUrl_contract (base ep : String) :
    (jsTrim base = "" ∧ jsTrim ep = "" →
      normalizeUrl base ep = .error (.instanceError "URL cannot be null"))
    ∧ (¬(jsTrim base = "" ∧ jsTrim ep = "") →
        normalizeUrl base ep =
          .ok (if stripTrailingSlashes base ≠ "" then
                stripTrailingSlashes base ++ "/" ++ stripLeadingSlashes ep
              else stripLeadingSlashes ep))
    ∧ normalizeUrl "https://api.x.com/" "/v1/items" = .ok "https://api.x.com/v1/items"
    ∧ normalizeUrl "" "" = .error (.instanceError "URL cannot be null")
    ∧ normalizeUrl "" "v1/items" = .ok "v1/items" := by
  refine ⟨fun h => ?_, fun h => ?_, by rfl, by rfl, by rfl⟩
  · unfold normalizeUrl
    rw [if_pos h]
  · unfold normalizeUrl
    rw [if_neg h]

theorem C3_normalizeUrl_contract_witness :
    (jsTrim "" = "" ∧ jsTrim "" = "")
    ∧ normalizeUrl "" "" = .error (.instanceError "URL cannot be null")
    ∧ ¬(jsTrim "https://api.x.com/" = "" ∧ jsTrim "/v1/items" = "")
    ∧ normalizeUrl "https://api.x.com/" "/v1/items"
        = .ok (if stripTrailingSlashes "https://api.x.com/" ≠ "" then
                stripTrailingSlashes "https://api.x.com/" ++ "/" ++ stripLeadingSlashes "/v1/items"
              else stripLeadingSlashes "/v1/items") := by
  have h1 : jsTrim "" = "" ∧ jsTrim "" = "" := ⟨rfl, rfl⟩
  have h2 : ¬(jsTrim "https://api.x.com/" = "" ∧ jsTrim "/v1/items" = "") := by decide
  exact ⟨h1, (C3_normalizeUrl_contract "" "").1 h1, h2,
    (C3_normalizeUrl_contract "https://api.x.com/" "/v1/items").2.1 h2⟩

/-- Claim C4, counterexample: The claim says every `AxiosError` failure
makes the call return normally with a classified error; but for an
`AxiosError` carrying no `request` object the classified-error
constructor itself throws, so the call rethrows a `TypeError` instead of
returning a handle. -/
theorem C4_counterexample :
    (callSettle { baseURL := "b" } "get" { endpoint := some "e" }
        (.axiosError { message := "Network Error", code := some "ERR_NETWORK" })).2.2
      = .threw (.typeError "Cannot read properties of undefined (reading status)") := by
  rfl

/-- Claim C4, amended: For every admitted call whose transport invocation
fails with an `AxiosError` that carries a `request` object, the call
returns normally with a handle whose `error` is the classified error,
`hasError` is true, `response` is absent, and the classified
`responseStatus` is the underlying HTTP response status, or 500 when no
response is present; any non-`AxiosError` failure during dispatch is
rethrown to the caller. -/
theorem C4_classified_errors (σ : AuroraState) (m : String) (o : CallOptions)
    (e : AxiosErrorData) (req : RequestData) (err : JsError) :
    (e.request = some req →
      ∃ pe, AuroraPromiseError.make e = .ok pe
        ∧ (callSettle σ m o (.axiosError e)).2.2 = .returned
            { response := none, error := some pe, hasError := true
              recallMethod := m, recallOptions := restOf o }
        ∧ pe.responseStatus = (e.response.map AxiosResponse.status).getD 500
        ∧ (e.response = none → pe.responseStatus = 500)
        ∧ (∀ r, e.response = some r → pe.responseStatus = r.status))
    ∧ (callSettle σ m o (.fatal err)).2.2 = .threw err := by
  constructor
  · intro h
    refine ⟨{ name := "AuroraPromiseError", msg := e.message, errorCode := e.code
              requestStatus := req.status
              responseStatus := (e.response.map AxiosResponse.status).getD 500
              axiosInstanceConfig := e.config }, ?_, ?_, rfl, ?_, ?_⟩
    · simp [AuroraPromiseError.make, h]
    · simp [callSettle, AuroraPromiseError.make, h]
    · intro hr
      simp [hr]
    · intro r hr
      simp [hr]
  · rfl

theorem C4_classified_errors_witness :
    (({ message := "boom", request := some { status := some 0 },
        response := some { status := 404 } } : AxiosErrorData).request
       = some { status := some 0 })
    ∧ (∃ pe, AuroraPromiseError.make
          { message := "boom", request := some { status := some 0 },
            response := some { status := 404 } } = .ok pe
        ∧ (callSettle { baseURL := "b" } "get" { endpoint := some "e" }
            (.axiosError { message := "boom", request := some { status := some 0 },
                           response := some { status := 404 } })).2.2 = .returned
            { response := none, error := some pe, hasError := true
              recallMethod := "get", recallOptions := restOf { endpoint := some "e" } }
        ∧ pe.responseStatus
            = ((({ message := "boom", request := some { status := some 0 },
                   response := some { status := 404 } } : AxiosErrorData).response.map
                AxiosResponse.status).getD 500)
        ∧ (({ message := "boom", request := some { status := some 0 },
              response := some { status := 404 } } : AxiosErrorData).response = none →
            pe.responseStatus = 500)
        ∧ (∀ r, ({ message := "boom", request := some { status := some 0 },
                   response := some { status := 404 } } : AxiosErrorData).response = some r →
            pe.responseStatus = r.status))
    ∧ (callSettle { baseURL := "b" } "get" { endpoint := some "e" }
        (.fatal (.fatalErr 7))).2.2 = .threw (.fatalErr 7) := by
  refine ⟨rfl, ?_, ?_⟩
  · exact (C4_classified_errors { baseURL := "b" } "get" { endpoint := some "e" }
      { message := "boom", request := some { status := some 0 },
        response := some { status := 404 } } { status := some 0 } (.fatalErr 7)).1 rfl
  · exact (C4_classified_errors { baseURL := "b" } "get" { endpoint := some "e" }
      { message := "boom", request := some { status := some 0 },
        response := some { status := 404 } } { status := some 0 } (.fatalErr 7)).2

/-- Claim C10: When an `AxiosError` carries no `request` object (a
transport-layer failure raised before any request was created), the
classified-error constructor's unconditional read of `request.status`
throws a `TypeError` out of the catch handler, so the call rethrows it
rather than returning a classified error with `hasError = true`. -/
theorem C10_classification_typeError (σ : AuroraState) (m : String) (o : CallOptions)
    (e : AxiosErrorData) (he : e.request = none) :
    AuroraPromiseError.make e
      = .error (.typeError "Cannot read properties of undefined (reading status)")
    ∧ (callSettle σ m o (.axiosError e)).2.2
        = .threw (.typeError "Cannot read properties of undefined (reading status)") := by
  constructor
  · simp [AuroraPromiseError.make, he]
  · simp [callSettle, AuroraPromiseError.make, he]

theorem C10_classification_typeError_witness :
    (({ message := "Network Error", code := some "ERR_NETWORK" } : AxiosErrorData).request = none)
    ∧ AuroraPromiseError.make { message := "Network Error", code := some "ERR_NETWORK" }
        = .error (.typeError "Cannot read properties of undefined (reading status)")
    ∧ (callSettle { baseURL := "b" } "get" { endpoint := some "e" }
        (.axiosError { message := "Network Error", code := some "ERR_NETWORK" })).2.2
        = .threw (.typeError "Cannot read properties of undefined (reading status)") := by
  refine ⟨rfl, ?_⟩
  exact C10_classification_typeError { baseURL := "b" } "get" { endpoint := some "e" }
    { message := "Network Error", code := some "ERR_NETWORK" } rfl

/-- The handle produced by the concrete call used to refute C5: its
captured option set has lost the original `loadingCallback`. -/
def recallCounterexampleHandle : Handle :=
  { response := some {}, error := none, hasError := false
    recallMethod := "get", recallOptions := { endpoint := some "e" } }

/-- Claim C5, counterexample: The claim says the recall closure captures
the exact per-call option set and re-invokes
`call(method, {...originalOptions, ...customOptions})`; but the rest
pattern in `call`'s parameter list strips `abortController` and
`loadingCallback` before `options` is captured, so a recalled call whose
original supplied a loading callback never fires it, unlike
`call(method, {...originalOptions, ...{}})`. -/
theorem C5_counterexample :
    (callSettle { baseURL := "b" } "get"
        { endpoint := some "e", loadingCallback := some 0 } (.success {})).2.2
      = .returned recallCounterexampleHandle
    ∧ recallCounterexampleHandle.recallOptions
        ≠ { endpoint := some "e", loadingCallback := some 0 }
    ∧ (invokeRecall recallCounterexampleHandle {} { baseURL := "b" }).2.1.count
        (.cbLoad true) = 0
    ∧ (callStart { baseURL := "b" }
        (mergeOptions { endpoint := some "e", loadingCallback := some 0 } {})).2.1.count
        (.cbLoad true) = 1 := by
  refine ⟨rfl, by decide, by decide, by decide⟩

/-- Claim C5, amended: For every call that returns a handle, the recall
closure captures the original method and the original per-call options
*minus `abortController` and `loadingCallback`* (stripped by the rest
pattern); `recall(customOptions)` re-invokes `call` with the spread of
those captured options under the overrides, against the orchestrator
state current at recall time — in particular with a fresh admission
check, which rejects when `current >= max` then. -/
theorem C5_recall_closure (σ : AuroraState) (m : String) (o : CallOptions)
    (out : TransportOutcome) (h : Handle)
    (hret : (callSettle σ m o out).2.2 = .returned h) :
    h.recallMethod = m ∧ h.recallOptions = restOf o
    ∧ (∀ (custom : CallOptions) (σ' : AuroraState),
        invokeRecall h custom σ' = callStart σ' (mergeOptions (restOf o) custom))
    ∧ (∀ (custom : CallOptions) (σ' : AuroraState),
        jsGe (.num σ'.requests.current) σ'.requests.max = true →
        (invokeRecall h custom σ').2.2
          = .rejected (.instanceError "Request limit exceeded")) := by
  have hfields : h.recallMethod = m ∧ h.recallOptions = restOf o := by
    cases out with
    | success r =>
        simp only [callSettle] at hret
        injection hret with hh
        rw [← hh]
        exact ⟨rfl, rfl⟩
    | axiosError e =>
        cases hmk : AuroraPromiseError.make e with
        | ok pe =>
            simp only [callSettle, hmk] at hret
            injection hret with hh
            rw [← hh]
            exact ⟨rfl, rfl⟩
        | error te =>
            simp only [callSettle, hmk] at hret
            exact SettleResult.noConfusion hret
    | fatal e =>
        simp only [callSettle] at hret
        exact SettleResult.noConfusion hret
  refine ⟨hfields.1, hfields.2, ?_, ?_⟩
  · intro custom σ'
    show callStart σ' (mergeOptions h.recallOptions custom) = _
    rw [hfields.2]
  · intro custom σ' hge
    show (callStart σ' (mergeOptions h.recallOptions custom)).2.2 = _
    rw [callStart_of_ge σ' _ hge]

theorem C5_recall_closure_witness :
    ((callSettle { baseURL := "b" } "get" { endpoint := some "e", loadingCallback := some 0 }
        (.success {})).2.2 = .returned recallCounterexampleHandle)
    ∧ recallCounterexampleHandle.recallMethod = "get"
    ∧ recallCounterexampleHandle.recallOptions
        = restOf { endpoint := some "e", loadingCallback := some 0 }
    ∧ invokeRecall recallCounterexampleHandle { data := some "d" } { baseURL := "c" }
        = callStart { baseURL := "c" }
            (mergeOptions (restOf { endpoint := some "e", loadingCallback := some 0 })
              { data := some "d" })
    ∧ (invokeRecall recallCounterexampleHandle {}
        { requests := { max := .num 1, current := 1 } }).2.2
        = .rejected (.instanceError "Request limit exceeded") := by
  have h := C5_recall_closure { baseURL := "b" } "get"
    { endpoint := some "e", loadingCallback := some 0 } (.success {})
    recallCounterexampleHandle rfl
  exact ⟨rfl, h.1, h.2.1, h.2.2.1 { data := some "d" } { baseURL := "c" },
    h.2.2.2 {} { requests := { max := .num 1, current := 1 } } (by decide)⟩

/-- Claim C6, counterexample: The claim says a supplied loading callback
is invoked with `true` exactly once on every outcome, including a throw
from URL normalization; but `loadingCallback(true)` sits *after* the
`normalizeUrl` call inside the `try` block, so on a normalization throw
the callback is never invoked with `true` — only with `false`, from the
`finally` block. -/
theorem C6_counterexample :
    ((callStart { baseURL := "" } { endpoint := some "", loadingCallback := some 0 }).2.2
      = .threw (.instanceError "URL cannot be null"))
    ∧ (callStart { baseURL := "" } { endpoint := some "", loadingCallback := some 0 }).2.1
        = [.resolveUrl "" "", .cbLoad false]
    ∧ (callStart { baseURL := "" } { endpoint := some "", loadingCallback := some 0 }).2.1.count
        (.cbLoad true) = 0 := by
  refine ⟨rfl, rfl, by decide⟩

/-- Claim C6, amended: For every admitted call that supplies a loading
callback: when URL normalization succeeds the callback is invoked with
`true` exactly once, before the transport dispatch, and with `false`
exactly once after the call settles, on every settlement outcome
(success, classified error, classification `TypeError`, fatal rethrow);
but when URL normalization throws, the callback is invoked only with
`false`, once, and never with `true`. -/
theorem C6_loading_callback (σ σ₂ : AuroraState) (m : String) (o : CallOptions)
    (hcb : o.loadingCallback.isSome = true) :
    (∀ e, (callStart σ o).2.2 = .threw e →
      (callStart σ o).2.1 = [.resolveUrl σ.baseURL (o.endpoint.getD ""), .cbLoad false])
    ∧ (∀ url cb, (callStart σ o).2.2 = .suspended url cb →
        (callStart σ o).2.1
          = [.resolveUrl σ.baseURL (o.endpoint.getD ""), .cbLoad true, .dispatch url])
    ∧ (∀ out, (callSettle σ₂ m o out).2.1 = [.cbLoad false]) := by
  refine ⟨?_, ?_, ?_⟩
  · intro e h
    by_cases hge : jsGe (.num σ.requests.current) σ.requests.max = true
    · simp [callStart, hge] at h
    · simp only [callStart, (by simpa using hge :
          jsGe (.num σ.requests.current) σ.requests.max = false),
        Bool.false_eq_true, if_false, callStartBody] at h ⊢
      cases hn : normalizeUrl σ.baseURL (o.endpoint.getD "") with
      | error e' => simp [hn, hcb]
      | ok u =>
          simp only [hn] at h
          exact StartResult.noConfusion h
  · intro url cb h
    by_cases hge : jsGe (.num σ.requests.current) σ.requests.max = true
    · simp [callStart, hge] at h
    · simp only [callStart, (by simpa using hge :
          jsGe (.num σ.requests.current) σ.requests.max = false),
        Bool.false_eq_true, if_false, callStartBody] at h ⊢
      cases hn : normalizeUrl σ.baseURL (o.endpoint.getD "") with
      | error e' =>
          simp only [hn] at h
          exact StartResult.noConfusion h
      | ok u =>
          simp only [hn] at h ⊢
          injection h with h1 h2
          subst h1
          simp [hcb]
  · intro out
    cases out with
    | success r => simp [callSettle, hcb]
    | axiosError e =>
        cases hmk : AuroraPromiseError.make e <;> simp [callSettle, hmk, hcb]
    | fatal e => simp [callSettle, hcb]

theorem C6_loading_callback_witness :
    (({ endpoint := some "", loadingCallback := some 0 } : CallOptions).loadingCallback.isSome
      = true)
    ∧ (callStart { baseURL := "" } { endpoint := some "", loadingCallback := some 0 }).2.1
        = [.resolveUrl "" "", .cbLoad false]
    ∧ (callStart { baseURL := "b" } { endpoint := some "e", loadingCallback := some 0 }).2.1
        = [.resolveUrl "b" "e", .cbLoad true, .dispatch "b/e"]
    ∧ (callSettle { baseURL := "b" } "get" { endpoint := some "e", loadingCallback := some 0 }
        (.success {})).2.1 = [.cbLoad false] := by
  refine ⟨rfl, ?_, ?_, ?_⟩
  · exact (C6_loading_callback { baseURL := "" } { baseURL := "" } "get"
      { endpoint := some "", loadingCallback := some 0 } rfl).1
      (.instanceError "URL cannot be null") rfl
  · exact (C6_loading_callback { baseURL := "b" } { baseURL := "b" } "get"
      { endpoint := some "e", loadingCallback := some 0 } rfl).2.1 "b/e" true rfl
  · exact (C6_loading_callback { baseURL := "b" } { baseURL := "b" } "get"
      { endpoint := some "e", loadingCallback := some 0 } rfl).2.2 (.success {})

/-- Claim C7: `addHeaders` merges its argument into the default headers,
overwriting same-named keys (for maps with unique keys, as object
literals have) and inserting new ones, never touching keys it does not
name; `removeHeaders()` with no argument clears all default headers;
`removeHeaders(names)` removes exactly the named keys (absent keys are
no-ops); and the specification's three-step concrete example leaves
exactly `{B: "3"}`. -/
theorem C7_default_headers (σ : AuroraState) (hs : List (String × String))
    (names : List String) (k v : String) :
    (k ∉ hs.map Prod.fst →
      objGet (addHeaders σ hs).headersCommon k = objGet σ.headersCommon k)
    ∧ ((hs.map Prod.fst).Nodup → (k, v) ∈ hs →
        objGet (addHeaders σ hs).headersCommon k = some v)
    ∧ (removeHeaders σ none).headersCommon = []
    ∧ (k ∈ names → objGet (removeHeaders σ (some names)).headersCommon k = none)
    ∧ (k ∉ names →
        objGet (removeHeaders σ (some names)).headersCommon k = objGet σ.headersCommon k)
    ∧ (removeHeaders (addHeaders (addHeaders {} [("A", "1")]) [("A", "2"), ("B", "3")])
        (some ["A"])).headersCommon = [("B", "3")] := by
  refine ⟨?_, ?_, rfl, ?_, ?_, by decide⟩
  · intro hk
    exact objGet_objAssign_not_mem hs σ.headersCommon k hk
  · intro hnd hmem
    exact objGet_objAssign_mem hs σ.headersCommon k v hnd hmem
  · intro hk
    exact objGet_foldl_objDelete_mem names σ.headersCommon k hk
  · intro hk
    exact objGet_foldl_objDelete_not_mem names σ.headersCommon k hk

theorem C7_default_headers_witness :
    ("C" ∉ ([("A", "1")] : List (String × String)).map Prod.fst)
    ∧ objGet (addHeaders { headersCommon := [("C", "9")] } [("A", "1")]).headersCommon "C"
        = objGet ([("C", "9")] : List (String × String)) "C"
    ∧ (([("A", "2"), ("B", "3")] : List (String × String)).map Prod.fst).Nodup
    ∧ ("B", "3") ∈ ([("A", "2"), ("B", "3")] : List (String × String))
    ∧ objGet (addHeaders { headersCommon := [("C", "9")] }
        [("A", "2"), ("B", "3")]).headersCommon "B" = some "3"
    ∧ ("A" ∈ ["A"])
    ∧ objGet (removeHeaders { headersCommon := [("A", "1"), ("B", "3")] }
        (some ["A"])).headersCommon "A" = none
    ∧ (removeHeaders (addHeaders (addHeaders {} [("A", "1")]) [("A", "2"), ("B", "3")])
        (some ["A"])).headersCommon = [("B", "3")] := by
  refine ⟨by decide, ?_, by decide, by decide, ?_, by decide, ?_, ?_⟩
  · exact (C7_default_headers { headersCommon := [("C", "9")] } [("A", "1")] [] "C" "").1
      (by decide)
  · exact (C7_default_headers { headersCommon := [("C", "9")] } [("A", "2"), ("B", "3")]
      [] "B" "3").2.1 (by decide) (by decide)
  · exact (C7_default_headers { headersCommon := [("A", "1"), ("B", "3")] } [] ["A"]
      "A" "").2.2.2.1 (by decide)
  · exact (C7_default_headers {} [] [] "" "").2.2.2.2.2

/-- Claim C8: `addParams` and `removeParams` act on the default query
parameters exactly as `addHeaders` and `removeHeaders` act on default
headers: `addParams` merges its argument in, overwriting same-named keys
and preserving the rest; `removeParams(names)` removes exactly the named
keys; and `removeParams()` with no argument clears all default params
regardless of prior contents. -/
theorem C8_default_params (σ : AuroraState) (ps : List (String × String))
    (names : List String) (k v : String) :
    (k ∉ ps.map Prod.fst → objGet (addParams σ ps).params k = objGet σ.params k)
    ∧ ((ps.map Prod.fst).Nodup → (k, v) ∈ ps → objGet (addParams σ ps).params k = some v)
    ∧ (removeParams σ none).params = []
    ∧ (k ∈ names → objGet (removeParams σ (some names)).params k = none)
    ∧ (k ∉ names → objGet (removeParams σ (some names)).params k = objGet σ.params k) := by
  refine ⟨?_, ?_, rfl, ?_, ?_⟩
  · intro hk
    exact objGet_objAssign_not_mem ps σ.params k hk
  · intro hnd hmem
    exact objGet_objAssign_mem ps σ.params k v hnd hmem
  · intro hk
    exact objGet_foldl_objDelete_mem names σ.params k hk
  · intro hk
    exact objGet_foldl_objDelete_not_mem names σ.params k hk

theorem C8_default_params_witness :
    ("q" ∉ ([("page", "2")] : List (String × String)).map Prod.fst)
    ∧ objGet (addParams { params := [("q", "x")] } [("page", "2")]).params "q"
        = objGet ([("q", "x")] : List (String × String)) "q"
    ∧ (([("page", "2")] : List (String × String)).map Prod.fst).Nodup
    ∧ ("page", "2") ∈ ([("page", "2")] : List (String × String))
    ∧ objGet (addParams { params := [("q", "x")] } [("page", "2")]).params "page" = some "2"
    ∧ (removeParams { params := [("q", "x"), ("page", "2")] } none).params = [] := by
  refine ⟨by decide, ?_, by decide, by decide, ?_, ?_⟩
  · exact (C8_default_params { params := [("q", "x")] } [("page", "2")] [] "q" "").1
      (by decide)
  · exact (C8_default_params { params := [("q", "x")] } [("page", "2")] [] "page" "2").2.1
      (by decide) (by decide)
  · exact (C8_default_params { params := [("q", "x"), ("page", "2")] } [] [] "" "").2.2.1

/-- Claim C9: `setMaxConcurrentRequestsLimit`: a positive finite number
sets `max` to that value; zero, a negative number, or an absent argument
all reset `max` to `Infinity` (unbounded). -/
theorem C9_set_limit (σ : AuroraState) (n : Int) :
    (0 < n → (setMaxConcurrentRequestsLimit σ (some (.num n))).requests.max = .num n)
    ∧ (setMaxConcurrentRequestsLimit σ (some (.num 0))).requests.max = .posInf
    ∧ (n < 0 → (setMaxConcurrentRequestsLimit σ (some (.num n))).requests.max = .posInf)
    ∧ (setMaxConcurrentRequestsLimit σ none).requests.max = .posInf := by
  refine ⟨?_, by simp [setMaxConcurrentRequestsLimit, jsTruthy], ?_,
    by simp [setMaxConcurrentRequestsLimit]⟩
  · intro h
    have h1 : jsTruthy (.num n) = true := by
      simp [jsTruthy]
      omega
    have h2 : jsGt (.num n) (.num 0) = true := by
      simp [jsGt]
      omega
    simp [setMaxConcurrentRequestsLimit, h1, h2]
  · intro h
    have h2 : jsGt (.num n) (.num 0) = false := by
      simp [jsGt]
      omega
    simp [setMaxConcurrentRequestsLimit, h2]

theorem C9_set_limit_witness :
    ((0 : Int) < 3
      ∧ (setMaxConcurrentRequestsLimit {} (some (.num 3))).requests.max = .num 3)
    ∧ (setMaxConcurrentRequestsLimit {} (some (.num 0))).requests.max = .posInf
    ∧ ((-2 : Int) < 0
      ∧ (setMaxConcurrentRequestsLimit {} (some (.num (-2)))).requests.max = .posInf)
    ∧ (setMaxConcurrentRequestsLimit {} none).requests.max = .posInf := by
  refine ⟨⟨by omega, (C9_set_limit {} 3).1 (by omega)⟩, (C9_set_limit {} 3).2.1,
    ⟨by omega, (C9_set_limit {} (-2)).2.2.1 (by omega)⟩, (C9_set_limit {} (-2)).2.2.2⟩

end Aurora
